import Mathlib

/-!
Shallow embedding of `aniniscale` (src/main.cpp): a pixel-art downscaler that
replaces each `x_factor × y_factor` block of source pixels with one output pixel
chosen by a dominant-color vote.  Machine `unsigned int` values are modelled as
`Nat` with explicit `% 2^32` at the points where the source can wrap.
-/

namespace Aniniscale

/-- Modulus of the C++ `unsigned int` type used throughout `main.cpp`. -/
def U32 : Nat := 4294967296

/-- An in-memory image: `width * height * bandCount` byte samples in row-major,
band-interleaved order (the layout `VImage::data` exposes). -/
structure Image where
  width : Nat
  height : Nat
  bandCount : Nat
  data : List Nat
deriving DecidableEq

/-- Byte sample of `img` at pixel `(x, y)`, band `b` (row-major, band-interleaved). -/
def pixelAt (img : Image) (x y b : Nat) : Nat :=
  img.data.getD ((y * img.width + x) * img.bandCount + b) 0

/-- Model of `VImage::extract_area(left, top, w, h)`: contiguous copy of a
rectangular sub-region, band-interleaved, row-major. -/
def extract_area (img : Image) (left top w h : Nat) : Image :=
  { width := w, height := h, bandCount := img.bandCount,
    data := (List.range h).flatMap fun yy =>
      (List.range w).flatMap fun xx =>
        (List.range img.bandCount).map fun b =>
          pixelAt img (left + xx) (top + yy) b }

/-- Color-key packing of pixel `i` of a flat tile buffer (main.cpp lines 174-180):
`color |= pixels[i * bandCount + b] << ((bandCount - 1 - b) * 8)`. -/
def packColor (bandCount : Nat) (pixels : List Nat) (i : Nat) : Nat :=
  (List.range bandCount).foldl
    (fun color b => color ||| (pixels.getD (i * bandCount + b) 0 <<< ((bandCount - 1 - b) * 8)))
    0

/-- The packed color keys of a tile's `size` pixels, in the scan order of the
loop at main.cpp line 172 (row-major within the tile). -/
def tileColors (bandCount : Nat) (pixels : List Nat) (size : Nat) : List Nat :=
  (List.range size).map (packColor bandCount pixels)

/-- The voting loop over the tile's color keys (main.cpp lines 172-195).  Each
iteration runs `colors[c] += 1; if (domCount < colors[c]) { domCount =
colors[c]; dominant = c; if (domCount >= win) break; }`.  The `std::map` of
counts is modelled as a total function that is `0` on absent keys, exactly
like `operator[]`. -/
def domLoop (win : Nat) : List Nat → (Nat → Nat) → Nat → Nat → Nat
  | [], _, dominant, _ => dominant
  | c :: rest, colors, dominant, domCount =>
    let cnt := colors c + 1
    let colors1 : Nat → Nat := fun k => if k = c then cnt else colors k
    if domCount < cnt then
      if win ≤ cnt then c
      else domLoop win rest colors1 c cnt
    else domLoop win rest colors1 dominant domCount

/-- Dominant color of one tile: the voting loop started from the empty count
map, `dominant = 0`, `domCount = 0` (main.cpp lines 167-169). -/
def findDominant (win : Nat) (cs : List Nat) : Nat :=
  domLoop win cs (fun _ => 0) 0 0

/-- Writing the dominant color's band values into the output buffer
(main.cpp lines 198-201): `out[base + b] = (dominant >> ((bandCount-1-b)*8)) & 0xFF`. -/
def writePixel (out : List Nat) (base bandCount dominant : Nat) : List Nat :=
  (List.range bandCount).foldl
    (fun o b => o.set (base + b) ((dominant >>> ((bandCount - 1 - b) * 8)) &&& 0xFF))
    out

/-- The `work` task (main.cpp lines 138-204): reduce every `x_factor × y_factor`
tile of `img` to its voted dominant color, writing output pixel `(x, y)` at
index `(y * x_tiles + x) * bandCount` of the caller-provided buffer `out`. -/
def work (x_factor y_factor : Nat) (img : Image) (out : List Nat) : List Nat :=
  let x_tiles := img.width / x_factor
  let y_tiles := img.height / y_factor
  let size := x_factor * y_factor
  let win := size / 2
  (List.range x_tiles).foldl
    (fun out1 x =>
      (List.range y_tiles).foldl
        (fun out2 y =>
          let area := extract_area img (x * x_factor) (y * y_factor) x_factor y_factor
          let dominant := findDominant win (tileColors img.bandCount area.data size)
          writePixel out2 ((y * x_tiles + x) * img.bandCount) img.bandCount dominant)
        out1)
    out

/-- The 4×4 single-band end-to-end scenario image of spec §8. -/
def img4 : Image :=
  { width := 4, height := 4, bandCount := 1,
    data := [1, 1, 2, 2, 1, 1, 2, 2, 3, 3, 4, 4, 3, 3, 4, 4] }

/-- The section-planning geometry computed by `main` (main.cpp lines 244-299). -/
structure Plan where
  x_tiles : Nat
  y_tiles : Nat
  workerCount : Nat
  x_section : Nat
  y_section : Nat
  x_sectionSize : Nat
  y_sectionSize : Nat
  x_sectionCount : Nat
  y_sectionCount : Nat
deriving DecidableEq

/-- The worker-trimming loop (main.cpp lines 266-269):
`while (workerCount > x_tiles || workerCount > y_tiles) workerCount -= 2;`
with the `unsigned int` wrap-around of `-= 2` made explicit.  The C++ loop has
no bound, so the model carries fuel and returns `none` if the fuel runs out;
`cutWorkers_terminates` shows the fuel used by `planner` always suffices. -/
def cutWorkers : Nat → Nat → Nat → Nat → Option Nat
  | 0, _, _, _ => none
  | fuel + 1, workerCount, x_tiles, y_tiles =>
    if x_tiles < workerCount ∨ y_tiles < workerCount then
      cutWorkers fuel ((workerCount + (U32 - 2)) % U32) x_tiles y_tiles
    else some workerCount

/-- The section-capping loop body (main.cpp lines 281-289):
`while (x_section > max_x_sections) x_section /= 2;`, with a structural fuel
argument so that the definition computes by kernel reduction. -/
def capSectionGo : Nat → Nat → Nat → Nat
  | 0, s, _ => s
  | fuel + 1, s, maxS => if maxS < s then capSectionGo fuel (s / 2) maxS else s

/-- The section-capping loop.  Starting fuel `s` dominates the number of
halvings the loop can perform (at most `log2 s + 1 ≤ s` for `s ≥ 1`, and the
loop body never runs for `s = 0`), so this equals the source's `while` loop. -/
def capSection (s maxS : Nat) : Nat :=
  capSectionGo s s maxS

/-- The planning phase of `main` (main.cpp lines 244-299): tile counts, worker
count (rounded up to even, trimmed by 2 while it exceeds either tile count,
clamped up to 1 if it reached 0), section geometry and section counts.
`none` models non-termination of the trimming loop (shown impossible). -/
def planner (width height x_factor y_factor hardwareConcurrency : Nat) : Option Plan :=
  let x_tiles := width / x_factor
  let y_tiles := height / y_factor
  let max_x_sections := (x_factor * x_factor) % U32
  let max_y_sections := (y_factor * y_factor) % U32
  let workerCount0 := (hardwareConcurrency + hardwareConcurrency % 2) % U32
  match cutWorkers (workerCount0 + 1) workerCount0 x_tiles y_tiles with
  | none => none
  | some workerCount1 =>
    let workerCount := if workerCount1 = 0 then 1 else workerCount1
    let x_section := capSection (x_tiles / workerCount) max_x_sections
    let y_section := capSection (y_tiles / workerCount) max_y_sections
    let x_sectionSize := (x_section * x_factor) % U32
    let y_sectionSize := (y_section * y_factor) % U32
    some { x_tiles := x_tiles, y_tiles := y_tiles, workerCount := workerCount,
           x_section := x_section, y_section := y_section,
           x_sectionSize := x_sectionSize, y_sectionSize := y_sectionSize,
           x_sectionCount := width / x_sectionSize,
           y_sectionCount := height / y_sectionSize }

/-- The section coordinates `(x_task, y_task)` in the iteration order of the
`std::map<std::pair<unsigned,unsigned>, ...>` of results (lexicographic, which
is also the creation order of the loops at main.cpp lines 317-330). -/
def sectionCoords (p : Plan) : List (Nat × Nat) :=
  (List.range p.x_sectionCount).flatMap fun x_task =>
    (List.range p.y_sectionCount).map fun y_task => (x_task, y_task)

/-- Model of `VImage::insert(sub, px, py)` with the libvips default (no `expand`):
the result keeps `main`'s dimensions and `sub` overwrites the rectangle at
`(px, py)`, clipped to `main`'s bounds. -/
def imageInsert (main sub : Image) (px py : Nat) : Image :=
  { main with data :=
      (List.range main.height).flatMap fun y =>
        (List.range main.width).flatMap fun x =>
          (List.range main.bandCount).map fun b =>
            if px ≤ x ∧ x - px < sub.width ∧ py ≤ y ∧ y - py < sub.height then
              pixelAt sub (x - px) (y - py) b
            else pixelAt main x y b }

/-- Assembly of the final image (main.cpp lines 352-368): a zero-initialized
buffer of `x_tiles * y_tiles * bandCount` bytes viewed as an `x_tiles × y_tiles`
image, into which each section's `x_section × y_section` result block is
inserted at `(x_task * x_section, y_task * y_section)`. -/
def mainOutput (p : Plan) (bandCount : Nat) (sectionResult : Nat → Nat → List Nat) : Image :=
  (sectionCoords p).foldl
    (fun out coords =>
      imageInsert out
        { width := p.x_section, height := p.y_section, bandCount := bandCount,
          data := sectionResult coords.1 coords.2 }
        (coords.1 * p.x_section) (coords.2 * p.y_section))
    { width := p.x_tiles, height := p.y_tiles, bandCount := bandCount,
      data := List.replicate (p.x_tiles * p.y_tiles * bandCount) 0 }

/-- The inputs `main` consumes from its environment: whether `VIPS_INIT`
succeeds, the argument count, the two factors as parsed by `atoi` (so possibly
zero or negative), whether the open/save codec calls succeed, the decoded
input image, and `std::thread::hardware_concurrency()`. -/
structure MainInput where
  initOk : Bool
  argc : Nat
  x_factor : Int
  y_factor : Int
  openOk : Bool
  saveOk : Bool
  inputImage : Image
  hardwareConcurrency : Nat

/-- How a run of `main` ends.  Codec failures abort via a C++ exception, so
they carry no exit code; `plannerDiverged` marks non-termination of the
worker-trimming loop (shown impossible). -/
inductive MainOutcome where
  | initFailure
  | notEnoughArgs
  | badFactor
  | codecFailure
  | plannerDiverged
  | savedUnchanged (img : Image)
  | processed (plan : Plan) (outImg : Image)

/-- The control flow of `main` (main.cpp lines 206-380).  The pair is the exit
code (`none` = the process terminates without returning from `main`, i.e. an
uncaught codec exception or a hung loop) and what was produced. -/
def mainModel (inp : MainInput) : Option Int × MainOutcome :=
  if inp.initOk = false then (some (-1), MainOutcome.initFailure)
  else if inp.argc < 5 then (some (-1), MainOutcome.notEnoughArgs)
  else if inp.x_factor < 1 ∨ inp.y_factor < 1 then (some (-1), MainOutcome.badFactor)
  else if inp.openOk = false then (none, MainOutcome.codecFailure)
  else if inp.x_factor = 1 ∧ inp.y_factor = 1 then
    if inp.saveOk then (some 0, MainOutcome.savedUnchanged inp.inputImage)
    else (none, MainOutcome.codecFailure)
  else
    let x_factor := inp.x_factor.toNat
    let y_factor := inp.y_factor.toNat
    let bandCount := inp.inputImage.bandCount
    match planner inp.inputImage.width inp.inputImage.height x_factor y_factor
        inp.hardwareConcurrency with
    | none => (none, MainOutcome.plannerDiverged)
    | some p =>
      let sectionResult := fun x_task y_task =>
        work x_factor y_factor
          (extract_area inp.inputImage (x_task * p.x_sectionSize) (y_task * p.y_sectionSize)
            p.x_sectionSize p.y_sectionSize)
          (List.replicate (p.x_section * p.y_section * bandCount) 0)
      if inp.saveOk then (some 0, MainOutcome.processed p (mainOutput p bandCount sectionResult))
      else (none, MainOutcome.codecFailure)

/-- The final image's plan, when the run processed sections. -/
def outcomePlan : MainOutcome → Option Plan
  | MainOutcome.processed p _ => some p
  | _ => none

/-- The final image's addressable width in output pixels, when the run
processed sections. -/
def outcomeWidth : MainOutcome → Option Nat
  | MainOutcome.processed _ img => some img.width
  | _ => none

/-- Spec-side notion of dominant color: a color of the tile whose occurrence
count is maximal among the tile's colors. -/
def isDominantColor (r : Nat) (cs : List Nat) : Prop :=
  r ∈ cs ∧ ∀ c ∈ cs, List.count c cs ≤ List.count r cs

instance (r : Nat) (cs : List Nat) : Decidable (isDominantColor r cs) :=
  inferInstanceAs (Decidable (r ∈ cs ∧ ∀ c ∈ cs, List.count c cs ≤ List.count r cs))

/-- A 5×1 single-band image whose only tile (factors 5×1) has two pixels of
color 1 followed by three pixels of color 2. -/
def img51 : Image := { width := 5, height := 1, bandCount := 1, data := [1, 1, 2, 2, 2] }

/-- The plan `main` computes for a 22×22 image with factors 2×2 and hardware
concurrency 2: the sections cover only `x_sectionCount * x_section = 10` of the
`x_tiles = 11` output columns. -/
def plan22 : Plan :=
  { x_tiles := 11, y_tiles := 11, workerCount := 2, x_section := 2, y_section := 2,
    x_sectionSize := 4, y_sectionSize := 4, x_sectionCount := 5, y_sectionCount := 5 }

/-- A 22×22 single-band all-zero image. -/
def img22 : Image := { width := 22, height := 22, bandCount := 1, data := List.replicate 484 0 }

/-- A successful run on `img22` with factors 2×2 and hardware concurrency 2. -/
def inp22 : MainInput :=
  { initOk := true, argc := 5, x_factor := 2, y_factor := 2, openOk := true, saveOk := true,
    inputImage := img22, hardwareConcurrency := 2 }

/-- The plan `main` computes for a 4×4 image with factors 5×1 (x_factor larger
than the width) and hardware concurrency 2. -/
def planDegenerate : Plan :=
  { x_tiles := 0, y_tiles := 4, workerCount := 1, x_section := 0, y_section := 1,
    x_sectionSize := 0, y_sectionSize := 1, x_sectionCount := 0, y_sectionCount := 4 }

/-- A successful identity-factor run on a 1×1 image. -/
def inpIdentity : MainInput :=
  { initOk := true, argc := 5, x_factor := 1, y_factor := 1, openOk := true, saveOk := true,
    inputImage := { width := 1, height := 1, bandCount := 1, data := [7] },
    hardwareConcurrency := 4 }

/-- A run whose image-library initialization fails. -/
def inpInitFail : MainInput :=
  { initOk := false, argc := 0, x_factor := 0, y_factor := 0, openOk := false, saveOk := false,
    inputImage := { width := 0, height := 0, bandCount := 0, data := [] },
    hardwareConcurrency := 0 }

/-- Bumping the running count of `c` over the counts of a scanned prefix `p`
yields exactly the counts of `p ++ [c]`. -/
lemma count_update_eq (p : List Nat) (c : Nat) :
    (fun k => if k = c then List.count c p + 1 else List.count k p) =
      fun k => List.count k (p ++ [c]) := by
  funext k
  by_cases hk : k = c
  · subst hk; simp
  · simp [List.count_append, List.count_cons, hk]

/-- Loop invariant for the voting loop when no color of the whole tile ever
reaches `win` votes: starting from the counts of an already-scanned prefix `p`
whose maximal count `domCount` is attained by `dominant ∈ p`, the loop returns
a maximal-count color of the whole tile. -/
lemma domLoop_mode_aux (win : Nat) :
    ∀ (l p : List Nat) (dominant domCount : Nat),
      (∀ c ∈ p ++ l, List.count c (p ++ l) < win) →
      (∀ c, List.count c p ≤ domCount) →
      List.count dominant p = domCount →
      dominant ∈ p →
      isDominantColor (domLoop win l (fun k => List.count k p) dominant domCount) (p ++ l) := by
  intro l
  induction l with
  | nil =>
    intro p dominant domCount hwin hmax hdom hmem
    simp only [domLoop, List.append_nil]
    exact ⟨hmem, fun c _ => hdom ▸ hmax c⟩
  | cons c rest ih =>
    intro p dominant domCount hwin hmax hdom hmem
    have hassoc : (p ++ [c]) ++ rest = p ++ c :: rest := by simp
    simp only [domLoop]
    by_cases h1 : domCount < List.count c p + 1
    · rw [if_pos h1]
      by_cases h2 : win ≤ List.count c p + 1
      · exfalso
        have hcmem : c ∈ p ++ c :: rest := by simp
        have hwc := hwin c hcmem
        have hcount : List.count c p + 1 ≤ List.count c (p ++ c :: rest) := by
          simp [List.count_append, List.count_cons]
        omega
      · rw [if_neg h2, count_update_eq]
        have h := ih (p ++ [c]) c (List.count c p + 1)
          (by rw [hassoc]; exact hwin)
          (by intro d
              by_cases hd : d = c
              · subst hd; simp [List.count_append]
              · have : List.count d (p ++ [c]) = List.count d p := by
                  simp [List.count_append, List.count_cons, hd]
                rw [this]
                have := hmax d
                omega)
          (by simp [List.count_append])
          (by simp)
        rw [hassoc] at h
        exact h
    · rw [if_neg h1, count_update_eq]
      have hne : dominant ≠ c := by
        intro he
        rw [he] at hdom
        omega
      have h := ih (p ++ [c]) dominant domCount
        (by rw [hassoc]; exact hwin)
        (by intro d
            by_cases hd : d = c
            · subst hd
              have : List.count d (p ++ [d]) = List.count d p + 1 := by
                simp [List.count_append]
              omega
            · have : List.count d (p ++ [c]) = List.count d p := by
                simp [List.count_append, List.count_cons, hd]
              rw [this]; exact hmax d)
        (by have : List.count dominant (p ++ [c]) = List.count dominant p := by
              simp [List.count_append, List.count_cons, hne]
            rw [this]; exact hdom)
        (by simp [hmem])
      rw [hassoc] at h
      exact h

/-- The voting loop either keeps its starting dominant color or returns a color
of the scanned list. -/
lemma domLoop_mem (win : Nat) :
    ∀ (l : List Nat) (colors : Nat → Nat) (dominant domCount : Nat),
      domLoop win l colors dominant domCount = dominant ∨
        domLoop win l colors dominant domCount ∈ l := by
  intro l
  induction l with
  | nil => intro colors dominant domCount; left; rfl
  | cons c rest ih =>
    intro colors dominant domCount
    simp only [domLoop]
    by_cases h1 : domCount < colors c + 1
    · rw [if_pos h1]
      by_cases h2 : win ≤ colors c + 1
      · rw [if_pos h2]; right; exact List.mem_cons_self c rest
      · rw [if_neg h2]
        rcases ih (fun k => if k = c then colors c + 1 else colors k) c (colors c + 1) with h | h
        · right; rw [h]; exact List.mem_cons_self c rest
        · right; exact List.mem_cons_of_mem c h
    · rw [if_neg h1]
      rcases ih (fun k => if k = c then colors c + 1 else colors k) dominant domCount with h | h
      · left; exact h
      · right; exact List.mem_cons_of_mem c h

/-- The reducer's dominant color for a non-empty tile occurs in the tile. -/
lemma findDominant_mem (win : Nat) (cs : List Nat) (hne : cs ≠ []) :
    findDominant win cs ∈ cs := by
  obtain ⟨c, rest, rfl⟩ := List.exists_cons_of_ne_nil hne
  unfold findDominant
  simp only [domLoop]
  rw [if_pos (by omega : (0 : Nat) < 0 + 1)]
  by_cases h2 : win ≤ 0 + 1
  · rw [if_pos h2]; exact List.mem_cons_self c rest
  · rw [if_neg h2]
    rcases domLoop_mem win rest (fun k => if k = c then 0 + 1 else 0) c (0 + 1) with h | h
    · rw [h]; exact List.mem_cons_self c rest
    · exact List.mem_cons_of_mem c h

/-- The worker-trimming loop terminates whenever it starts from an even value
below `2^32` (which `main` always does): the fuel `workerCount / 2 + 1`
iterations suffice. -/
lemma cutWorkers_terminates :
    ∀ (fuel workerCount x_tiles y_tiles : Nat),
      workerCount % 2 = 0 → workerCount < U32 → workerCount < 2 * fuel →
      ∃ r, cutWorkers fuel workerCount x_tiles y_tiles = some r := by
  intro fuel
  induction fuel with
  | zero => intro wc xt yt _ _ h; omega
  | succ n ih =>
    intro wc xt yt hev hlt hfuel
    by_cases hc : xt < wc ∨ yt < wc
    · have hpos : 0 < wc := by rcases hc with h | h <;> omega
      have hstep : (wc + (U32 - 2)) % U32 = wc - 2 := by
        simp only [U32] at hlt ⊢
        omega
      rw [cutWorkers, if_pos hc, hstep]
      exact ih (wc - 2) xt yt (by omega) (by simp only [U32] at hlt ⊢; omega) (by omega)
    · exact ⟨wc, by rw [cutWorkers, if_neg hc]⟩

/-- Field equations of a successfully computed plan. -/
lemma planner_fields (width height x_factor y_factor H : Nat) (p : Plan)
    (h : planner width height x_factor y_factor H = some p) :
    p.x_tiles = width / x_factor ∧ p.y_tiles = height / y_factor ∧
      p.x_sectionCount = width / p.x_sectionSize ∧
      p.y_sectionCount = height / p.y_sectionSize := by
  rcases hcw : cutWorkers ((H + H % 2) % U32 + 1) ((H + H % 2) % U32)
      (width / x_factor) (height / y_factor) with _ | r
  · simp only [planner, hcw] at h
    exact Option.noConfusion h
  · simp only [planner, hcw] at h
    obtain rfl := Option.some.inj h
    exact ⟨rfl, rfl, rfl, rfl⟩

/-- Folding `imageInsert` over any coordinate list never changes the base
image's dimensions. -/
lemma foldl_imageInsert_dims (step : Nat × Nat → Image) (sx sy : Nat) :
    ∀ (l : List (Nat × Nat)) (acc : Image),
      ((l.foldl (fun out c => imageInsert out (step c) (c.1 * sx) (c.2 * sy)) acc).width =
          acc.width ∧
        (l.foldl (fun out c => imageInsert out (step c) (c.1 * sx) (c.2 * sy)) acc).height =
          acc.height) := by
  intro l
  induction l with
  | nil => intro acc; exact ⟨rfl, rfl⟩
  | cons c rest ih => intro acc; exact ih (imageInsert acc (step c) (c.1 * sx) (c.2 * sy))

/-- The assembled output image always has `x_tiles × y_tiles` addressable
output pixels. -/
lemma mainOutput_dims (p : Plan) (bandCount : Nat) (sectionResult : Nat → Nat → List Nat) :
    (mainOutput p bandCount sectionResult).width = p.x_tiles ∧
      (mainOutput p bandCount sectionResult).height = p.y_tiles :=
  foldl_imageInsert_dims
    (fun c => { width := p.x_section, height := p.y_section, bandCount := bandCount,
                data := sectionResult c.1 c.2 })
    p.x_section p.y_section (sectionCoords p) _

/-- C1 (counterexample): the claim "the output pixel equals the color key
occupying the largest number of pixels in the tile" fails for the 5×1 tile with
pixel colors `[1, 1, 2, 2, 2]` and factors 5×1 (`win = 5/2 = 2`): the reducer
emits color 1 (whose running count reaches `win` first), yet color 2 occupies
3 > 2 pixels of the tile. -/
theorem claim_C1_counterexample :
    work 5 1 img51 (List.replicate 1 0) = [1] ∧
      tileColors 1 (extract_area img51 0 0 5 1).data (5 * 1) = [1, 1, 2, 2, 2] ∧
      List.count 2 [1, 1, 2, 2, 2] = 3 ∧ List.count 1 [1, 1, 2, 2, 2] = 2 ∧
      ¬ isDominantColor 1 [1, 1, 2, 2, 2] := by decide

/-- C1 (amended): for every tile in which no color's occurrence count reaches
the early-exit threshold `win`, the reducer's output pixel is a color occupying
the largest number of pixels in the tile (when some color does reach `win`
during the scan, the reducer instead emits the first color to do so, which need
not be a maximal-count color). -/
theorem claim_C1_theorem (win : Nat) (cs : List Nat) (hne : cs ≠ [])
    (hwin : ∀ c ∈ cs, List.count c cs < win) :
    isDominantColor (findDominant win cs) cs := by
  obtain ⟨c, rest, rfl⟩ := List.exists_cons_of_ne_nil hne
  have hc1 : (1 : Nat) ≤ List.count c (c :: rest) := by simp [List.count_cons]
  have hw := hwin c (by simp)
  unfold findDominant
  simp only [domLoop]
  rw [if_pos (by omega : (0 : Nat) < 0 + 1), if_neg (by omega : ¬ win ≤ 0 + 1)]
  have hcolors : (fun k => if k = c then (0 : Nat) + 1 else 0) = fun k => List.count k [c] := by
    funext k
    by_cases hk : k = c
    · subst hk; simp
    · simp [List.count_cons, hk]
  rw [hcolors]
  have h := domLoop_mode_aux win rest [c] c (0 + 1)
    (by rw [List.singleton_append]; exact hwin)
    (by intro d
        by_cases hd : d = c
        · subst hd; simp
        · simp [List.count_cons, hd])
    (by simp)
    (by simp)
  rw [List.singleton_append] at h
  exact h

/-- C1 (witness): a 9-pixel tile whose three colors each hold 3 < win = 4
votes; the reducer picks a maximal-count color. -/
theorem claim_C1_witness :
    ([1, 1, 1, 2, 2, 2, 3, 3, 3] : List Nat) ≠ [] ∧
      isDominantColor (findDominant 4 [1, 1, 1, 2, 2, 2, 3, 3, 3])
        [1, 1, 1, 2, 2, 2, 3, 3, 3] :=
  ⟨by decide, claim_C1_theorem 4 [1, 1, 1, 2, 2, 2, 3, 3, 3] (by decide) (by decide)⟩

/-- C2 (counterexample): for a 22×22 single-band image with factors 2×2 and
hardware concurrency 2, the plan has `x_sectionCount * x_section = 10` while
`x_tiles = 11`, and the assembled output image's addressable width is 11 — the
tile-derived value — not the section-derived value 10 the claim asserts. -/
theorem claim_C2_counterexample :
    outcomePlan (mainModel inp22).2 = some plan22 ∧
      outcomeWidth (mainModel inp22).2 = some 11 ∧
      plan22.x_sectionCount * plan22.x_section = 10 ∧ plan22.x_tiles = 11 ∧
      (11 : Nat) ≠ 10 := by decide

/-- C2 (amended): only source pixels inside the section grid are ever
processed — every section's extraction rectangle lies within the
`x_sectionCount * x_sectionSize × y_sectionCount * y_sectionSize` grid, which
lies within the image — and the assembled output image's addressable width in
output pixels equals the tile-derived value `x_tiles` (not the section-derived
value `x_sectionCount * x_section`, whose columns are merely the only ones any
section writes); same for the height. -/
theorem claim_C2_theorem (width height x_factor y_factor H : Nat) (p : Plan)
    (h : planner width height x_factor y_factor H = some p) :
    (∀ x_task, x_task < p.x_sectionCount →
        x_task * p.x_sectionSize + p.x_sectionSize ≤ p.x_sectionCount * p.x_sectionSize ∧
          p.x_sectionCount * p.x_sectionSize ≤ width) ∧
      (∀ y_task, y_task < p.y_sectionCount →
          y_task * p.y_sectionSize + p.y_sectionSize ≤ p.y_sectionCount * p.y_sectionSize ∧
            p.y_sectionCount * p.y_sectionSize ≤ height) ∧
      ∀ bandCount sectionResult,
        (mainOutput p bandCount sectionResult).width = p.x_tiles ∧
          (mainOutput p bandCount sectionResult).height = p.y_tiles := by
  obtain ⟨-, -, hxc, hyc⟩ := planner_fields width height x_factor y_factor H p h
  refine ⟨fun xt hxt => ⟨?_, ?_⟩, fun yt hyt => ⟨?_, ?_⟩,
    fun bandCount sectionResult => mainOutput_dims p bandCount sectionResult⟩
  · have h1 : xt + 1 ≤ p.x_sectionCount := hxt
    calc xt * p.x_sectionSize + p.x_sectionSize = (xt + 1) * p.x_sectionSize := by ring
      _ ≤ p.x_sectionCount * p.x_sectionSize := Nat.mul_le_mul_right _ h1
  · rw [hxc]
    exact Nat.div_mul_le_self width p.x_sectionSize
  · have h1 : yt + 1 ≤ p.y_sectionCount := hyt
    calc yt * p.y_sectionSize + p.y_sectionSize = (yt + 1) * p.y_sectionSize := by ring
      _ ≤ p.y_sectionCount * p.y_sectionSize := Nat.mul_le_mul_right _ h1
  · rw [hyc]
    exact Nat.div_mul_le_self height p.y_sectionSize

/-- C2 (witness): the amended bounds and output width at the 22×22, factors
2×2, concurrency-2 configuration. -/
theorem claim_C2_witness :
    0 * plan22.x_sectionSize + plan22.x_sectionSize ≤
        plan22.x_sectionCount * plan22.x_sectionSize ∧
      plan22.x_sectionCount * plan22.x_sectionSize ≤ 22 ∧
      (mainOutput plan22 1 (fun _ _ => [])).width = 11 :=
  ⟨((claim_C2_theorem 22 22 2 2 2 plan22 (by decide)).1 0 (by decide)).1,
   ((claim_C2_theorem 22 22 2 2 2 plan22 (by decide)).1 0 (by decide)).2,
   ((claim_C2_theorem 22 22 2 2 2 plan22 (by decide)).2.2 1 (fun _ _ => [])).1⟩

/-- C3: the reducer scans the tile's pixels in row-major order and stops as
soon as the running dominant count reaches `win = tileSize / 2`; for a tile of
size 5 (`win = 2`) whose pixels at positions 0, 1, 2 all have color `a`, the
result is `a` whatever the colors `p`, `q` at positions 3 and 4 are — indeed
whatever any suffix after the first two `a`s is. -/
theorem claim_C3 (a p q : Nat) :
    findDominant ((5 * 1) / 2) [a, a, a, p, q] = a ∧
      ∀ rest : List Nat, findDominant ((5 * 1) / 2) (a :: a :: rest) = a := by
  refine ⟨?_, fun rest => ?_⟩ <;> simp [findDominant, domLoop]

/-- C4: the running dominant color is replaced only on a strictly greater
updated count — when the scanned color's updated count is not strictly greater
than `domCount`, the loop continues with `dominant` and `domCount` unchanged
(only the count map is updated) — so the first color to reach a given count
wins ties; in particular a size-4 tile `[a, a, b, b]` with `a ≠ b` reduces
to `a`. -/
theorem claim_C4 :
    (∀ (win : Nat) (colors : Nat → Nat) (dominant domCount c : Nat) (rest : List Nat),
        colors c + 1 ≤ domCount →
        domLoop win (c :: rest) colors dominant domCount =
          domLoop win rest (fun k => if k = c then colors c + 1 else colors k)
            dominant domCount) ∧
      ∀ a b : Nat, a ≠ b → findDominant ((2 * 2) / 2) [a, a, b, b] = a := by
  constructor
  · intro win colors dominant domCount c rest h
    simp only [domLoop]
    rw [if_neg (by omega)]
  · intro a b _
    simp [findDominant, domLoop]

/-- C4 (witness): a concrete non-replacing step (count 1 not above `domCount`
5) and the concrete tie tile `[1, 1, 2, 2]` reducing to 1. -/
theorem claim_C4_witness :
    domLoop 2 [7] (fun _ => 0) 9 5 =
        domLoop 2 [] (fun k => if k = 7 then (fun _ : Nat => (0 : Nat)) 7 + 1
          else (fun _ : Nat => (0 : Nat)) k) 9 5 ∧
      findDominant ((2 * 2) / 2) [1, 1, 2, 2] = 1 :=
  ⟨claim_C4.1 2 (fun _ => 0) 9 5 7 [] (by decide), claim_C4.2 1 2 (by decide)⟩

/-- C5: the 4×4 single-band end-to-end scenario: factors 2×2 reduce
`[[1,1,2,2],[1,1,2,2],[3,3,4,4],[3,3,4,4]]` to the 2×2 output `[[1,2],[3,4]]`,
tile `(x, y)`'s pixel being stored at index `(y * x_tiles + x) * bandCount`. -/
theorem claim_C5 :
    work 2 2 img4 (List.replicate 4 0) = [1, 2, 3, 4] ∧
      (work 2 2 img4 (List.replicate 4 0)).getD ((0 * 2 + 0) * 1) 0 = 1 ∧
      (work 2 2 img4 (List.replicate 4 0)).getD ((0 * 2 + 1) * 1) 0 = 2 ∧
      (work 2 2 img4 (List.replicate 4 0)).getD ((1 * 2 + 0) * 1) 0 = 3 ∧
      (work 2 2 img4 (List.replicate 4 0)).getD ((1 * 2 + 1) * 1) 0 = 4 := by decide

/-- C6: for any image size, factors ≥ 1 and any hardware concurrency value
`H ≥ 0`, the planning phase terminates (the round-up-to-even step leaves an
even count, so the decrement-by-2 loop reaches 0 exactly and never wraps) and
the final clamp leaves `workerCount ≥ 1`. -/
theorem claim_C6 (width height x_factor y_factor H : Nat)
    (_hx : 1 ≤ x_factor) (_hy : 1 ≤ y_factor) :
    ∃ p, planner width height x_factor y_factor H = some p ∧ 1 ≤ p.workerCount := by
  have hev : ((H + H % 2) % U32) % 2 = 0 := by
    simp only [U32]
    omega
  have hlt : (H + H % 2) % U32 < U32 := Nat.mod_lt _ (by simp only [U32]; omega)
  obtain ⟨r, hr⟩ := cutWorkers_terminates ((H + H % 2) % U32 + 1) ((H + H % 2) % U32)
    (width / x_factor) (height / y_factor) hev hlt (by omega)
  rcases hq : planner width height x_factor y_factor H with _ | p
  · exfalso
    simp only [planner, hr] at hq
    exact Option.noConfusion hq
  · refine ⟨p, rfl, ?_⟩
    simp only [planner, hr] at hq
    obtain rfl := Option.some.inj hq
    show (1 : Nat) ≤ if r = 0 then 1 else r
    by_cases hr0 : r = 0
    · simp [hr0]
    · simp only [hr0, if_false]
      omega

/-- C6 (witness): concrete planning of a 100×100 image with factors 2×2 and
hardware concurrency 3. -/
theorem claim_C6_witness :
    ∃ p, planner 100 100 2 2 3 = some p ∧ 1 ≤ p.workerCount :=
  claim_C6 100 100 2 2 3 (by decide) (by decide)

/-- C7: with `x_factor = 5` exceeding the width 4, the planner computation is
degenerate and unguarded: it still produces a plan, with `x_tiles = 0`, hence
`x_section = 0` and `x_sectionSize = 0`, and `x_sectionCount` is computed as
`width / x_sectionSize` with a zero divisor (undefined behavior in the C++;
`Nat` division totalizes it as 0 here). -/
theorem claim_C7 :
    4 < 5 ∧ planner 4 4 5 1 2 = some planDegenerate ∧ planDegenerate.x_tiles = 0 ∧
      planDegenerate.x_section = 0 ∧ planDegenerate.x_sectionSize = 0 ∧
      planDegenerate.x_sectionCount = 4 / planDegenerate.x_sectionSize := by decide

/-- C8: when initialization, arguments, open and save all succeed and both
factors are 1, `main` takes the fast path: it writes the input image unchanged
and exits with code 0, performing no tiling or reduction. -/
theorem claim_C8 (inp : MainInput) (hinit : inp.initOk = true) (hargc : 5 ≤ inp.argc)
    (hx : inp.x_factor = 1) (hy : inp.y_factor = 1) (hopen : inp.openOk = true)
    (hsave : inp.saveOk = true) :
    mainModel inp = (some 0, MainOutcome.savedUnchanged inp.inputImage) := by
  have hargc2 : ¬ inp.argc < 5 := by omega
  simp [mainModel, hinit, hx, hy, hopen, hsave, hargc2]

/-- C8 (witness): the identity-factor run on a concrete 1×1 image. -/
theorem claim_C8_witness :
    mainModel inpIdentity =
      (some 0, MainOutcome.savedUnchanged
        { width := 1, height := 1, bandCount := 1, data := [7] }) :=
  claim_C8 inpIdentity rfl (by decide) rfl rfl rfl rfl

/-- C9: `main` returns -1 exactly when image-library initialization fails,
fewer than 4 positional arguments are supplied, or either factor parses below
1; and in every such case the outcome is one of the three early-error
outcomes, none of which carries any image work. -/
theorem claim_C9 (inp : MainInput) :
    ((mainModel inp).1 = some (-1) ↔
        inp.initOk = false ∨ inp.argc < 5 ∨ inp.x_factor < 1 ∨ inp.y_factor < 1) ∧
      ((mainModel inp).1 = some (-1) →
        (mainModel inp).2 = MainOutcome.initFailure ∨
          (mainModel inp).2 = MainOutcome.notEnoughArgs ∨
          (mainModel inp).2 = MainOutcome.badFactor) := by
  unfold mainModel
  split_ifs with h1 h2 h3 h4 h5 h6 <;>
    try (constructor
         · simp_all
         · intro hcode
           simp_all)
  all_goals
    rcases hpl : planner inp.inputImage.width inp.inputImage.height inp.x_factor.toNat
        inp.y_factor.toNat inp.hardwareConcurrency with _ | p <;>
      simp_all

/-- C9 (witness): a run whose initialization fails returns -1 with the
init-failure outcome. -/
theorem claim_C9_witness :
    (mainModel inpInitFail).1 = some (-1) ∧
      ((mainModel inpInitFail).2 = MainOutcome.initFailure ∨
        (mainModel inpInitFail).2 = MainOutcome.notEnoughArgs ∨
        (mainModel inpInitFail).2 = MainOutcome.badFactor) :=
  ⟨(claim_C9 inpInitFail).1.mpr (Or.inl rfl),
   (claim_C9 inpInitFail).2 ((claim_C9 inpInitFail).1.mpr (Or.inl rfl))⟩

/-- C10: for every non-empty tile, the reducer's emitted dominant key is a
packed color of one of the tile's scanned pixels; in particular the
zero-initialized default dominant value 0 is never emitted for a tile whose
packed colors do not contain 0. -/
theorem claim_C10 (bandCount : Nat) (pixels : List Nat) (size win : Nat) (hsize : 1 ≤ size) :
    findDominant win (tileColors bandCount pixels size) ∈ tileColors bandCount pixels size ∧
      (0 ∉ tileColors bandCount pixels size →
        findDominant win (tileColors bandCount pixels size) ≠ 0) := by
  have hlen : (tileColors bandCount pixels size).length = size := by
    simp [tileColors]
  have hne : tileColors bandCount pixels size ≠ [] := by
    intro hemp
    rw [hemp] at hlen
    simp at hlen
    omega
  have hmem := findDominant_mem win (tileColors bandCount pixels size) hne
  exact ⟨hmem, fun h0 he => h0 (he ▸ hmem)⟩

/-- C10 (witness): the 3-pixel single-band tile `[5, 5, 7]` with `win = 1`. -/
theorem claim_C10_witness :
    findDominant 1 (tileColors 1 [5, 5, 7] 3) ∈ tileColors 1 [5, 5, 7] 3 ∧
      (0 ∉ tileColors 1 [5, 5, 7] 3 → findDominant 1 (tileColors 1 [5, 5, 7] 3) ≠ 0) :=
  claim_C10 1 [5, 5, 7] 3 1 (by decide)

end Aniniscale
